import Mathlib

/-!
llvm-IR-in-Go: the generated visibility lookup and the assembler contracts

Shallow embedding of `asm/enum/visibility_string.go` (package `enum`), followed by
models of the numbering scheme and of the declaration pass of the resolver.

Go strings are byte sequences, so a string is a list of byte values.  Package-level
variables live in an explicit `Globals` record that every Go computation threads
through, and a Go panic is an `Except.error`.
-/

set_option autoImplicit false

namespace Enum

/-! ## Go strings -/

/-- A Go `string`: an immutable sequence of bytes (each element below 256). -/
abbrev GoString := List Nat

/-- UTF-8 encoding of one code point, as the Go compiler encodes string literals. -/
def encodeRune (c : Nat) : List Nat :=
  if c < 0x80 then [c]
  else if c < 0x800 then [0xC0 + c / 64, 0x80 + c % 64]
  else if c < 0x10000 then [0xE0 + c / 4096, 0x80 + c / 64 % 64, 0x80 + c % 64]
  else [0xF0 + c / 262144, 0x80 + c / 4096 % 64, 0x80 + c / 64 % 64, 0x80 + c % 64]

/-- The bytes of a Go string literal. -/
def lit (s : String) : GoString :=
  s.toList.flatMap (fun c => encodeRune c.toNat)

/-! ## Runtime model -/

/-- Package-level variables of package `enum` (`var _Visibility_index = [...]uint8{...}`). -/
structure Globals where
  _Visibility_index : List Nat
  deriving DecidableEq, Repr

/-- The ways a call can panic. -/
inductive Panic where
  /-- Runtime error: array index out of range. -/
  | indexOutOfRange (i len : Nat)
  /-- Runtime error: slice bounds out of range. -/
  | sliceBoundsOutOfRange (lo hi len : Nat)
  /-- The explicit `panic(fmt.Errorf("unable to locate Visibility enum corresponding to %q", s))`. -/
  | unableToLocate (s : GoString)
  deriving DecidableEq, Repr

/-- Outcomes of a call can be compared: equality of `Except` values is decidable. -/
instance instDecidableEqExcept {ε α : Type} [DecidableEq ε] [DecidableEq α] :
    DecidableEq (Except ε α)
  | Except.ok a, Except.ok b =>
    if h : a = b then isTrue (by rw [h]) else isFalse (fun h1 => h (Except.ok.inj h1))
  | Except.error a, Except.error b =>
    if h : a = b then isTrue (by rw [h]) else isFalse (fun h1 => h (Except.error.inj h1))
  | Except.ok _, Except.error _ => isFalse (fun h => Except.noConfusion h)
  | Except.error _, Except.ok _ => isFalse (fun h => Except.noConfusion h)

/-- A Go computation: reads and may write the globals, then returns or panics. -/
def Go (α : Type) : Type := Globals → Except Panic α × Globals

/-- Return a value, globals untouched. -/
def Go.ret {α : Type} (a : α) : Go α := fun g => (Except.ok a, g)

/-- Panic, globals untouched. -/
def Go.throw {α : Type} (p : Panic) : Go α := fun g => (Except.error p, g)

/-- Sequencing: a panic in the first computation skips the rest. -/
def Go.seq {α β : Type} (x : Go α) (f : α → Go β) : Go β := fun g =>
  match x g with
  | (Except.ok a, g1) => f a g1
  | (Except.error p, g1) => (Except.error p, g1)

instance : Monad Go where
  pure := Go.ret
  bind := Go.seq

/-- Modelled from the spec: the type `enum.Visibility` ("EnumValue") is declared in `ir/enum`,
outside these sources.  It is an unsigned integer type; the only values converted to it here are the constant `0` and a
loop index below `len(_Visibility_index) - 1`, which it represents exactly. -/
abbrev Visibility := Nat

/-! ## `visibility_string.go` -/

/-- `const _Visibility_name = "nonedefaulthiddenprotected"`. -/
def _Visibility_name : GoString := lit "nonedefaulthiddenprotected"

/-- The initial value `[...]uint8{0, 4, 11, 17, 26}` of `_Visibility_index`. -/
def initGlobals : Globals := { _Visibility_index := [0, 4, 11, 17, 26] }

/-- `len(_Visibility_index)`. -/
def lenIndex : Go Nat := fun g => (Except.ok g._Visibility_index.length, g)

/-- `_Visibility_index[i]`, bounds-checked. -/
def loadIndex (i : Nat) : Go Nat := fun g =>
  match g._Visibility_index[i]? with
  | some v => (Except.ok v, g)
  | none => (Except.error (Panic.indexOutOfRange i g._Visibility_index.length), g)

/-- `_Visibility_name[lo:hi]`, bounds-checked. -/
def sliceName (lo hi : Nat) : Go GoString :=
  if lo ≤ hi ∧ hi ≤ _Visibility_name.length then
    Go.ret ((_Visibility_name.take hi).drop lo)
  else
    Go.throw (Panic.sliceBoundsOutOfRange lo hi _Visibility_name.length)

/-- The `for i := range _Visibility_index[:len(_Visibility_index)-1]` loop, at index `i`
with `k` iterations left.  `some v` is the early `return enum.Visibility(i)`, `none` is
falling out of the loop. -/
def VisibilityFromString.loop (s : GoString) : Nat → Nat → Go (Option Visibility)
  | _, 0 => Go.ret none
  | i, k + 1 => do
    let lo ← loadIndex i
    let hi ← loadIndex (i + 1)
    let e ← sliceName lo hi
    if s = e then
      Go.ret (some i)
    else
      VisibilityFromString.loop s (i + 1) k

/-- `func VisibilityFromString(s string) enum.Visibility`. -/
def VisibilityFromString (s : GoString) : Go Visibility :=
  if s.length = 0 then
    Go.ret 0
  else do
    let n ← lenIndex
    match ← VisibilityFromString.loop s 0 (n - 1) with
    | some v => Go.ret v
    | none => Go.throw (Panic.unableToLocate s)

/-- The outcome of calling `VisibilityFromString(s)` in the program as initialised. -/
def call (s : GoString) : Except Panic Visibility :=
  (VisibilityFromString s initGlobals).1

/-- Entry `i` of the table: the value of
`_Visibility_name[_Visibility_index[i]:_Visibility_index[i+1]]` in the program as
initialised, `none` when evaluating the expression panics. -/
def entry (i : Nat) : Option GoString :=
  match (loadIndex i >>= fun lo => loadIndex (i + 1) >>= fun hi => sliceName lo hi)
      initGlobals with
  | (Except.ok e, _) => some e
  | (Except.error _, _) => none

/-- The entries the loop visits, in order: one per index in `0 .. len(_Visibility_index)-2`. -/
def entries : List GoString :=
  (List.range (initGlobals._Visibility_index.length - 1)).filterMap entry

end Enum

namespace Asm

/-! ## The numbering scheme (specification, section 4.5) -/

/-- Modelled from the spec: the numbering scheme, whose implementation is outside these
sources.  The declarations of one scope are given in file-appearance order, each by its
explicit name (`none` when unnamed).  Walking them with a counter, an unnamed declaration
receives the counter as implicit identifier and advances it; a named declaration receives
no identifier and leaves the counter alone. -/
def numberFrom (next : Nat) : List (Option String) → List (Option Nat)
  | [] => []
  | some _ :: ds => none :: numberFrom next ds
  | none :: ds => some next :: numberFrom (next + 1) ds

/-- Modelled from the spec: the numbering of a whole scope starts at `0`. -/
def number (ds : List (Option String)) : List (Option Nat) :=
  numberFrom 0 ds

/-- Number of unnamed declarations among the first `k` of a scope. -/
def unnamedBefore (ds : List (Option String)) (k : Nat) : Nat :=
  (ds.take k).countP Option.isNone

/-! ## Pass 1 of the resolver (specification, section 4.4) -/

/-- Modelled from the spec: the kinds of symbolic reference, one namespace (scope) each. -/
inductive RefKind where
  | type
  | global
  | metadata
  | attrGroup
  | comdat
  deriving DecidableEq, Repr

/-- Modelled from the spec: an entity is identified by an explicit name or by a number. -/
inductive Ident where
  | name (s : String)
  | number (n : Nat)
  deriving DecidableEq, Repr

/-- Modelled from the spec: a top-level declaration as pass 1 sees it, with the namespace it
belongs to and its explicit name (`none` when unnamed). -/
structure Decl where
  kind : RefKind
  name : Option String
  deriving DecidableEq, Repr

/-- Modelled from the spec: a symbol-table slot is a placeholder made by a forward reference
or the real entity. -/
inductive Slot where
  | placeholder
  | defined
  deriving DecidableEq, Repr

/-- Modelled from the spec: the symbol table, from kind-tagged name or number to slot. -/
abbrev SymTab := List ((RefKind × Ident) × Slot)

/-- Modelled from the spec: the error kinds of section 7. -/
inductive AsmError where
  | LexError
  | SyntaxError
  | DuplicateDefinition (kind : RefKind) (id : Ident)
  | UnresolvedReference (refs : List (RefKind × Ident))
  | TypeMismatch
  deriving DecidableEq, Repr

/-- Look a key up in the symbol table. -/
def SymTab.find : SymTab → RefKind × Ident → Option Slot
  | [], _ => none
  | (k1, s) :: rest, k => if k1 = k then some s else SymTab.find rest k

/-- Upgrade the slot registered under a key to the real entity, in place. -/
def SymTab.upgrade : SymTab → RefKind × Ident → SymTab
  | [], _ => []
  | (k1, s) :: rest, k =>
    if k1 = k then (k1, Slot.defined) :: SymTab.upgrade rest k
    else (k1, s) :: SymTab.upgrade rest k

/-- State of pass 1: the symbol table and, per namespace, the next implicit identifier. -/
structure DeclState where
  tab : SymTab
  next : RefKind → Nat

/-- Pass 1 starts with nothing declared and every counter at `0`. -/
def DeclState.init : DeclState := { tab := [], next := fun _ => 0 }

/-- Advance the implicit-identifier counter of one namespace. -/
def bump (next : RefKind → Nat) (k : RefKind) : RefKind → Nat :=
  fun k1 => if k1 = k then next k1 + 1 else next k1

/-- Modelled from the spec: declaring one top-level entity in pass 1.  The entity is
registered under its name, or under the next implicit number of its namespace when it is
unnamed; a placeholder left by a forward reference is upgraded in place; a key that is
already taken by a real entity is a `DuplicateDefinition`. -/
def declare (st : DeclState) (d : Decl) : Except AsmError DeclState :=
  match d.name with
  | some n =>
    match st.tab.find (d.kind, Ident.name n) with
    | some Slot.defined => Except.error (AsmError.DuplicateDefinition d.kind (Ident.name n))
    | some Slot.placeholder =>
      Except.ok { st with tab := st.tab.upgrade (d.kind, Ident.name n) }
    | none => Except.ok { st with tab := ((d.kind, Ident.name n), Slot.defined) :: st.tab }
  | none =>
    let id := Ident.number (st.next d.kind)
    match st.tab.find (d.kind, id) with
    | some Slot.defined => Except.error (AsmError.DuplicateDefinition d.kind id)
    | some Slot.placeholder =>
      Except.ok { tab := st.tab.upgrade (d.kind, id), next := bump st.next d.kind }
    | none =>
      Except.ok { tab := ((d.kind, id), Slot.defined) :: st.tab, next := bump st.next d.kind }

/-- Modelled from the spec: pass 1 declares every top-level entity in file order and stops
at the first error. -/
def pass1 (st : DeclState) : List Decl → Except AsmError DeclState
  | [] => Except.ok st
  | d :: ds =>
    match declare st d with
    | Except.ok st1 => pass1 st1 ds
    | Except.error e => Except.error e

/-- Modelled from the spec: assembly of the parsed declarations.  Pass 1 fully precedes
pass 2 and every error is fatal for the file; pass 2 (define and link), which is not
described in enough detail to model, is the parameter `pass2`. -/
def assemble {Module : Type} (pass2 : SymTab → Except AsmError Module) (ds : List Decl) :
    Except AsmError Module :=
  match pass1 DeclState.init ds with
  | Except.ok st => pass2 st.tab
  | Except.error e => Except.error e

end Asm

namespace Enum

theorem lit_none : lit "none" = [110, 111, 110, 101] := by decide
theorem lit_default : lit "default" = [100, 101, 102, 97, 117, 108, 116] := by decide
theorem lit_hidden : lit "hidden" = [104, 105, 100, 100, 101, 110] := by decide
theorem lit_protected : lit "protected" = [112, 114, 111, 116, 101, 99, 116, 101, 100] := by decide

/-- One iteration of the loop in the initial globals, when the entry does not match. -/
theorem loop_step_init (s : GoString) (i k lo hi : Nat)
    (hlo : initGlobals._Visibility_index[i]? = some lo)
    (hhi : initGlobals._Visibility_index[i + 1]? = some hi)
    (hb : lo ≤ hi ∧ hi ≤ _Visibility_name.length) :
    VisibilityFromString.loop s i (k + 1) initGlobals =
      if s = (_Visibility_name.take hi).drop lo then (Except.ok (some i), initGlobals)
      else VisibilityFromString.loop s (i + 1) k initGlobals := by
  simp only [VisibilityFromString.loop, bind, Go.seq, loadIndex, hlo, hhi, sliceName, hb,
    and_self, if_true, Go.ret]
  split <;> rfl

/-- Closed form of the call in the initial globals. -/
theorem call_eq (s : GoString) :
    call s =
      if s = [] then Except.ok 0
      else if s = lit "none" then Except.ok 0
      else if s = lit "default" then Except.ok 1
      else if s = lit "hidden" then Except.ok 2
      else if s = lit "protected" then Except.ok 3
      else Except.error (Panic.unableToLocate s) := by
  by_cases h0 : s = []
  · subst h0; rfl
  · have hlen : ¬ (s.length = 0) := fun h => h0 (List.length_eq_zero.mp h)
    have t0 : (_Visibility_name.take 4).drop 0 = lit "none" := by decide
    have t1 : (_Visibility_name.take 11).drop 4 = lit "default" := by decide
    have t2 : (_Visibility_name.take 17).drop 11 = lit "hidden" := by decide
    have t3 : (_Visibility_name.take 26).drop 17 = lit "protected" := by decide
    have e0 : VisibilityFromString.loop s 0 4 initGlobals =
        if s = lit "none" then (Except.ok (some 0), initGlobals)
        else VisibilityFromString.loop s 1 3 initGlobals := by
      have h := loop_step_init s 0 3 0 4 rfl rfl (by decide)
      rw [t0] at h; exact h
    have e1 : VisibilityFromString.loop s 1 3 initGlobals =
        if s = lit "default" then (Except.ok (some 1), initGlobals)
        else VisibilityFromString.loop s 2 2 initGlobals := by
      have h := loop_step_init s 1 2 4 11 rfl rfl (by decide)
      rw [t1] at h; exact h
    have e2 : VisibilityFromString.loop s 2 2 initGlobals =
        if s = lit "hidden" then (Except.ok (some 2), initGlobals)
        else VisibilityFromString.loop s 3 1 initGlobals := by
      have h := loop_step_init s 2 1 11 17 rfl rfl (by decide)
      rw [t2] at h; exact h
    have e3 : VisibilityFromString.loop s 3 1 initGlobals =
        if s = lit "protected" then (Except.ok (some 3), initGlobals)
        else VisibilityFromString.loop s 4 0 initGlobals := by
      have h := loop_step_init s 3 0 17 26 rfl rfl (by decide)
      rw [t3] at h; exact h
    have e4 : VisibilityFromString.loop s 4 0 initGlobals = (Except.ok none, initGlobals) := rfl
    have hl : VisibilityFromString.loop s 0 (initGlobals._Visibility_index.length - 1) initGlobals
        = VisibilityFromString.loop s 0 4 initGlobals := rfl
    simp only [call, VisibilityFromString, hlen, if_false, bind, Go.seq, lenIndex, hl, h0]
    rw [e0, e1, e2, e3, e4]
    split_ifs <;> rfl

/-- Sequencing two computations that leave the globals alone leaves the globals alone. -/
theorem seq_frame {α β : Type} (x : Go α) (f : α → Go β)
    (hx : ∀ g, (x g).2 = g) (hf : ∀ a g, (f a g).2 = g) (g : Globals) :
    (Go.seq x f g).2 = g := by
  have h := hx g
  unfold Go.seq
  rcases hxg : x g with ⟨r, g1⟩
  rw [hxg] at h
  simp only at h
  subst h
  cases r with
  | error e => rfl
  | ok a => exact hf a g1

theorem loadIndex_frame (i : Nat) (g : Globals) : (loadIndex i g).2 = g := by
  unfold loadIndex
  split <;> rfl

theorem sliceName_frame (lo hi : Nat) (g : Globals) : (sliceName lo hi g).2 = g := by
  unfold sliceName
  split <;> rfl

/-- The loop only reads the globals: whatever they hold, it leaves them as they are. -/
theorem loop_frame (s : GoString) (k i : Nat) (g : Globals) :
    (VisibilityFromString.loop s i k g).2 = g := by
  induction k generalizing i g with
  | zero => rfl
  | succ k ih =>
    unfold VisibilityFromString.loop
    refine seq_frame _ _ (loadIndex_frame i) (fun lo g1 => ?_) g
    refine seq_frame _ _ (loadIndex_frame (i + 1)) (fun hi g2 => ?_) g1
    refine seq_frame _ _ (sliceName_frame lo hi) (fun e g3 => ?_) g2
    split
    · rfl
    · exact ih (i + 1) g3

/-- The whole function only reads the globals. -/
theorem call_reads_only (s : GoString) (g : Globals) :
    (VisibilityFromString s g).2 = g := by
  unfold VisibilityFromString
  split
  · rfl
  · refine seq_frame _ _ (fun _ => rfl) (fun n g1 => ?_) g
    refine seq_frame _ _ (loop_frame s (n - 1) 0) (fun r g2 => ?_) g1
    cases r <;> rfl

/-- A non-empty string on which the call returns `v` is the entry of the table at `v`. -/
theorem call_ok_nonempty (s : GoString) (v : Visibility) (hs : s ≠ [])
    (h : call s = Except.ok v) :
    s = (_Visibility_name.take (initGlobals._Visibility_index.getD (v + 1) 0)).drop
      (initGlobals._Visibility_index.getD v 0) := by
  rw [call_eq] at h
  simp only [hs, if_false] at h
  split_ifs at h with h1 h2 h3 h4
  · cases h; rw [h1]; decide
  · cases h; rw [h2]; decide
  · cases h; rw [h3]; decide
  · cases h; rw [h4]; decide

/-- C1: each of the four known spellings is mapped to its enum value without a panic:
"none" to 0, "default" to 1, "hidden" to 2, "protected" to 3; equivalently entry `i` of the
table, `_Visibility_name[_Visibility_index[i]:_Visibility_index[i+1]]`, is mapped to `i`
for every `i` in 0..3. -/
theorem VisibilityFromString_known_spellings :
    call (lit "none") = Except.ok 0 ∧ call (lit "default") = Except.ok 1 ∧
    call (lit "hidden") = Except.ok 2 ∧ call (lit "protected") = Except.ok 3 ∧
    ∀ i : Fin 4,
      call ((_Visibility_name.take (initGlobals._Visibility_index.getD (i.val + 1) 0)).drop
        (initGlobals._Visibility_index.getD i.val 0)) = Except.ok i.val := by
  decide

/-- C2: the call is fatal only on an unrecognised literal: if `VisibilityFromString(s)`
panics then `s` is none of "none", "default", "hidden", "protected". -/
theorem VisibilityFromString_panic_only_unrecognized (s : GoString) (p : Panic)
    (h : call s = Except.error p) :
    s ≠ lit "none" ∧ s ≠ lit "default" ∧ s ≠ lit "hidden" ∧ s ≠ lit "protected" := by
  have k0 : call (lit "none") = Except.ok 0 := by decide
  have k1 : call (lit "default") = Except.ok 1 := by decide
  have k2 : call (lit "hidden") = Except.ok 2 := by decide
  have k3 : call (lit "protected") = Except.ok 3 := by decide
  refine ⟨fun e => ?_, fun e => ?_, fun e => ?_, fun e => ?_⟩
  · rw [e, k0] at h; cases h
  · rw [e, k1] at h; cases h
  · rw [e, k2] at h; cases h
  · rw [e, k3] at h; cases h

/-- Witness for C2 at the input "Hidden", on which the call panics. -/
theorem VisibilityFromString_panic_only_unrecognized_witness :
    call (lit "Hidden") = Except.error (Panic.unableToLocate (lit "Hidden")) ∧
    (lit "Hidden" ≠ lit "none" ∧ lit "Hidden" ≠ lit "default" ∧
      lit "Hidden" ≠ lit "hidden" ∧ lit "Hidden" ≠ lit "protected") :=
  ⟨by decide,
   VisibilityFromString_panic_only_unrecognized (lit "Hidden")
     (Panic.unableToLocate (lit "Hidden")) (by decide)⟩

/-- C3 as stated fails: the empty string and "none" are two different strings on which the
call returns, and it returns the same enum value 0 on both. -/
theorem VisibilityFromString_not_one_to_one :
    call (lit "") = Except.ok 0 ∧ call (lit "none") = Except.ok 0 ∧ lit "" ≠ lit "none" := by
  decide

/-- C3, amended: on non-empty strings the mapping is one-to-one: for non-empty `s` and `t`
on which the call returns without panicking, equal enum values imply `s = t`. -/
theorem VisibilityFromString_injective_on_nonempty (s t : GoString) (v : Visibility)
    (hs : s ≠ []) (ht : t ≠ [])
    (h1 : call s = Except.ok v) (h2 : call t = Except.ok v) : s = t := by
  rw [call_ok_nonempty s v hs h1, call_ok_nonempty t v ht h2]

/-- Witness for the amended C3 at `s = t = "hidden"`, both mapped to 2. -/
theorem VisibilityFromString_injective_on_nonempty_witness :
    lit "hidden" ≠ [] ∧ call (lit "hidden") = Except.ok 2 ∧ lit "hidden" = lit "hidden" :=
  ⟨by decide, by decide,
   VisibilityFromString_injective_on_nonempty (lit "hidden") (lit "hidden") 2
     (by decide) (by decide) (by decide) (by decide)⟩

/-- C8: the lookup tables are read-only.  `_Visibility_name` is a constant, and a call of
`VisibilityFromString(s)`, returning or panicking, leaves the globals (every element of
`_Visibility_index`) as it found them; so a call made after any other call has the outcome
of a call in the initial state, a function of `s` alone. -/
theorem VisibilityFromString_frame (s : GoString) :
    (∀ g : Globals, (VisibilityFromString s g).2 = g) ∧
    (∀ t : GoString,
      (VisibilityFromString s (VisibilityFromString t initGlobals).2).1 = call s) := by
  exact ⟨call_reads_only s,
    fun t => by rw [call_reads_only t initGlobals]; rfl⟩

/-- C9: every non-empty string that is not exactly one of "none", "default", "hidden",
"protected" is rejected with the explicit panic. -/
theorem VisibilityFromString_rejects_unrecognized (s : GoString) (hlen : 0 < s.length)
    (h1 : s ≠ lit "none") (h2 : s ≠ lit "default") (h3 : s ≠ lit "hidden")
    (h4 : s ≠ lit "protected") :
    call s = Except.error (Panic.unableToLocate s) := by
  have h0 : s ≠ [] := fun e => by rw [e] at hlen; exact Nat.lt_irrefl 0 hlen
  rw [call_eq]
  simp only [h0, h1, h2, h3, h4, if_false]

/-- Witness for C9 at the case variant "Hidden", the proper prefix "non", and the table
substrings "nonedefault" and "ed". -/
theorem VisibilityFromString_rejects_unrecognized_witness :
    call (lit "Hidden") = Except.error (Panic.unableToLocate (lit "Hidden")) ∧
    call (lit "non") = Except.error (Panic.unableToLocate (lit "non")) ∧
    call (lit "nonedefault") = Except.error (Panic.unableToLocate (lit "nonedefault")) ∧
    call (lit "ed") = Except.error (Panic.unableToLocate (lit "ed")) :=
  ⟨VisibilityFromString_rejects_unrecognized (lit "Hidden")
     (by decide) (by decide) (by decide) (by decide) (by decide),
   VisibilityFromString_rejects_unrecognized (lit "non")
     (by decide) (by decide) (by decide) (by decide) (by decide),
   VisibilityFromString_rejects_unrecognized (lit "nonedefault")
     (by decide) (by decide) (by decide) (by decide) (by decide),
   VisibilityFromString_rejects_unrecognized (lit "ed")
     (by decide) (by decide) (by decide) (by decide) (by decide)⟩

/-- C10: the empty string returns 0 without a panic, the enum value of "none". -/
theorem VisibilityFromString_empty :
    call (lit "") = Except.ok 0 ∧ call (lit "") = call (lit "none") := by
  decide

end Enum

namespace Asm

/-! ## The numbering scheme -/

/-- Identifier given to the declaration at position `k`, for a counter starting at `n`. -/
theorem numberFrom_getElem? (ds : List (Option String)) (n k : Nat) :
    (numberFrom n ds)[k]? =
      (ds[k]?).map (fun d => match d with
        | some _ => none
        | none => some (n + (ds.take k).countP Option.isNone)) := by
  induction ds generalizing n k with
  | nil => simp [numberFrom]
  | cons d ds ih =>
    cases d with
    | some a =>
      cases k with
      | zero => simp [numberFrom]
      | succ k => simp [numberFrom, ih]
    | none =>
      cases k with
      | zero => simp [numberFrom]
      | succ k =>
        simp only [numberFrom, List.getElem?_cons_succ, ih, List.take_succ_cons,
          List.countP_cons_of_pos, Option.isNone_none]
        cases ds[k]? with
        | none => rfl
        | some d => cases d <;> simp [Nat.add_assoc, Nat.add_comm]

/-- The identifiers handed out, in order, for a counter starting at `n`. -/
theorem numberFrom_filterMap (ds : List (Option String)) (n : Nat) :
    (numberFrom n ds).filterMap id = List.range' n (ds.countP Option.isNone) := by
  induction ds generalizing n with
  | nil => simp [numberFrom]
  | cons d ds ih =>
    cases d with
    | some a => simp [numberFrom, ih]
    | none => simp [numberFrom, ih, List.range'_succ]

/-- C6: the numbering scheme.  Over the declarations of one scope in file-appearance order,
the implicit identifiers handed out are exactly 0,1,2,... in order of appearance, one per
unnamed declaration; a named declaration receives none and consumes no slot, so an
unnamed declaration receives the number of unnamed declarations before it.  In particular
an unnamed global after two named globals receives 0, not 2. -/
theorem numbering_scheme (ds : List (Option String)) :
    (number ds).filterMap id = List.range (ds.countP Option.isNone) ∧
    (∀ k : Nat, (number ds)[k]? =
      (ds[k]?).map (fun d => match d with
        | some _ => none
        | none => some (unnamedBefore ds k))) ∧
    (∀ a b : String, number [some a, some b, none] = [none, none, some 0] ∧
      number [some a, some b, none] ≠ [none, none, some 2]) := by
  refine ⟨?_, ?_, ?_⟩
  · rw [number, numberFrom_filterMap, List.range_eq_range']
  · intro k
    rw [number, numberFrom_getElem?]
    simp only [unnamedBefore, Nat.zero_add]
  · intro a b
    simp [number, numberFrom]

/-! ## Pass 1: duplicate definitions -/

theorem find_upgrade_defined (t : SymTab) (k k1 : RefKind × Ident)
    (h : t.find k1 = some Slot.defined) : (t.upgrade k).find k1 = some Slot.defined := by
  induction t with
  | nil => simp [SymTab.find] at h
  | cons e t ih =>
    obtain ⟨k0, s⟩ := e
    simp only [SymTab.find] at h
    simp only [SymTab.upgrade]
    by_cases hk : k0 = k
    · simp only [hk, if_true, SymTab.find]
      by_cases hk1 : k = k1
      · simp [hk1]
      · rw [hk] at h
        simp only [hk1, if_false] at h ⊢
        exact ih h
    · simp only [hk, if_false, SymTab.find]
      by_cases hk1 : k0 = k1
      · simp only [hk1, if_true] at h ⊢
        exact h
      · simp only [hk1, if_false] at h ⊢
        exact ih h

theorem find_upgrade_self (t : SymTab) (k : RefKind × Ident) (s : Slot)
    (h : t.find k = some s) : (t.upgrade k).find k = some Slot.defined := by
  induction t with
  | nil => simp [SymTab.find] at h
  | cons e t ih =>
    obtain ⟨k0, s0⟩ := e
    simp only [SymTab.find] at h
    simp only [SymTab.upgrade]
    by_cases hk : k0 = k
    · simp [hk, SymTab.find]
    · simp only [hk, if_false, SymTab.find] at h ⊢
      exact ih h

/-- The only error of a declaration step is a duplicate definition. -/
theorem declare_error (st : DeclState) (d : Decl) (e : AsmError)
    (h : declare st d = Except.error e) :
    ∃ k id, e = AsmError.DuplicateDefinition k id := by
  unfold declare at h
  split at h
  · split at h
    · cases h; exact ⟨_, _, rfl⟩
    · cases h
    · cases h
  · simp only at h
    split at h
    · cases h; exact ⟨_, _, rfl⟩
    · cases h
    · cases h

/-- A declaration step never loses a real entity from the symbol table. -/
theorem declare_keeps (st st1 : DeclState) (d : Decl) (k : RefKind × Ident)
    (h : declare st d = Except.ok st1) (hk : st.tab.find k = some Slot.defined) :
    st1.tab.find k = some Slot.defined := by
  unfold declare at h
  cases hname : d.name with
  | some n =>
    rw [hname] at h
    simp only at h
    cases hf : st.tab.find (d.kind, Ident.name n) with
    | none =>
      rw [hf] at h
      cases h
      simp only [SymTab.find]
      by_cases hkk : (d.kind, Ident.name n) = k
      · rw [hkk] at hf; rw [hf] at hk; cases hk
      · simp only [hkk, if_false]; exact hk
    | some s =>
      rw [hf] at h
      cases s with
      | placeholder => cases h; exact find_upgrade_defined _ _ _ hk
      | defined => cases h
  | none =>
    rw [hname] at h
    simp only at h
    cases hf : st.tab.find (d.kind, Ident.number (st.next d.kind)) with
    | none =>
      rw [hf] at h
      cases h
      simp only [SymTab.find]
      by_cases hkk : (d.kind, Ident.number (st.next d.kind)) = k
      · rw [hkk] at hf; rw [hf] at hk; cases hk
      · simp only [hkk, if_false]; exact hk
    | some s =>
      rw [hf] at h
      cases s with
      | placeholder => cases h; exact find_upgrade_defined _ _ _ hk
      | defined => cases h

/-- After a named declaration is accepted, its name holds a real entity. -/
theorem declare_registers (st st1 : DeclState) (d : Decl) (n : String)
    (h : declare st d = Except.ok st1) (hn : d.name = some n) :
    st1.tab.find (d.kind, Ident.name n) = some Slot.defined := by
  unfold declare at h
  rw [hn] at h
  simp only at h
  split at h
  · cases h
  · next hp => cases h; exact find_upgrade_self _ _ _ hp
  · cases h; simp [SymTab.find]

/-- Declaring a name that already holds a real entity is a duplicate definition. -/
theorem declare_dup (st : DeclState) (d : Decl) (n : String) (hn : d.name = some n)
    (hk : st.tab.find (d.kind, Ident.name n) = some Slot.defined) :
    declare st d = Except.error (AsmError.DuplicateDefinition d.kind (Ident.name n)) := by
  unfold declare
  rw [hn]
  simp only [hk]

/-- Pass 1 fails once a later declaration reuses a name that holds a real entity. -/
theorem pass1_dup_of_defined (ds : List Decl) (st : DeclState) (d : Decl) (n : String)
    (hmem : d ∈ ds) (hn : d.name = some n)
    (hk : st.tab.find (d.kind, Ident.name n) = some Slot.defined) :
    ∃ k id, pass1 st ds = Except.error (AsmError.DuplicateDefinition k id) := by
  induction ds generalizing st with
  | nil => cases hmem
  | cons d0 ds ih =>
    unfold pass1
    cases hd : declare st d0 with
    | error e =>
      obtain ⟨k, id, he⟩ := declare_error st d0 e hd
      exact ⟨k, id, by simp only [he]⟩
    | ok st1 =>
      simp only
      rcases List.mem_cons.mp hmem with h0 | h0
      · rw [← h0, declare_dup st d n hn hk] at hd
        cases hd
      · exact ih st1 h0 (declare_keeps st st1 d0 _ hd hk)

/-- Pass 1 fails on any list holding two declarations with one kind and one name. -/
theorem pass1_duplicate (ds : List Decl) (st : DeclState) (i j : Nat) (d1 d2 : Decl)
    (n : String) (hij : i < j) (h1 : ds[i]? = some d1) (h2 : ds[j]? = some d2)
    (hk : d1.kind = d2.kind) (hn1 : d1.name = some n) (hn2 : d2.name = some n) :
    ∃ k id, pass1 st ds = Except.error (AsmError.DuplicateDefinition k id) := by
  induction ds generalizing st i j with
  | nil => simp at h1
  | cons d0 ds ih =>
    cases hd : declare st d0 with
    | error e =>
      obtain ⟨k, id, he⟩ := declare_error st d0 e hd
      exact ⟨k, id, by simp only [pass1, hd, he]⟩
    | ok st1 =>
      have hp : pass1 st (d0 :: ds) = pass1 st1 ds := by simp only [pass1, hd]
      rw [hp]
      cases j with
      | zero => exact absurd hij (Nat.not_lt_zero i)
      | succ j =>
        rw [List.getElem?_cons_succ] at h2
        cases i with
        | zero =>
          rw [List.getElem?_cons_zero] at h1
          have h10 : d0 = d1 := Option.some.inj h1
          have hreg := declare_registers st st1 d0 n hd (by rw [h10]; exact hn1)
          rw [h10, hk] at hreg
          exact pass1_dup_of_defined ds st1 d2 n (List.getElem?_mem h2) hn2 hreg
        | succ i =>
          rw [List.getElem?_cons_succ] at h1
          exact ih st1 i j (Nat.lt_of_succ_lt_succ hij) h1 h2

/-- C7: duplicate rejection.  When two top-level declarations of the same scope carry
the same explicit name, assembly fails with a `DuplicateDefinition` error whatever pass 2
would do, so no module is returned. -/
theorem duplicate_rejection {Module : Type} (pass2 : SymTab → Except AsmError Module)
    (ds : List Decl) (i j : Nat) (d1 d2 : Decl) (n : String)
    (hij : i < j) (h1 : ds[i]? = some d1) (h2 : ds[j]? = some d2)
    (hk : d1.kind = d2.kind) (hn1 : d1.name = some n) (hn2 : d2.name = some n) :
    ∃ k id, assemble pass2 ds = Except.error (AsmError.DuplicateDefinition k id) := by
  obtain ⟨k, id, h⟩ := pass1_duplicate ds DeclState.init i j d1 d2 n hij h1 h2 hk hn1 hn2
  exact ⟨k, id, by simp only [assemble, h]⟩

/-- Witness for C7: globals `@A`, `@B`, and `@B` again, as in `globalredefinition3.ll`. -/
theorem duplicate_rejection_witness :
    assemble (fun _ => Except.ok ())
        [⟨RefKind.global, some "A"⟩, ⟨RefKind.global, some "B"⟩, ⟨RefKind.global, some "B"⟩]
      = Except.error (AsmError.DuplicateDefinition RefKind.global (Ident.name "B")) ∧
    ∃ k id, assemble (fun _ => (Except.ok () : Except AsmError Unit))
        [⟨RefKind.global, some "A"⟩, ⟨RefKind.global, some "B"⟩, ⟨RefKind.global, some "B"⟩]
      = Except.error (AsmError.DuplicateDefinition k id) :=
  ⟨by decide,
   duplicate_rejection (fun _ => Except.ok ())
     [⟨RefKind.global, some "A"⟩, ⟨RefKind.global, some "B"⟩, ⟨RefKind.global, some "B"⟩]
     1 2 ⟨RefKind.global, some "B"⟩ ⟨RefKind.global, some "B"⟩ "B"
     (by decide) rfl rfl rfl rfl rfl⟩

end Asm

namespace Enum

/-! ## Range of the result, bounds safety and the shape of the table -/

/-- C11: whenever `VisibilityFromString(s)` returns, the returned value `v` satisfies
`0 ≤ v ≤ 3`: it is the index of one of the four entries delimited by `_Visibility_index`. -/
theorem VisibilityFromString_range (s : GoString) (v : Visibility)
    (h : call s = Except.ok v) :
    0 ≤ v ∧ v ≤ 3 ∧ v + 1 < initGlobals._Visibility_index.length := by
  rw [call_eq] at h
  split_ifs at h <;> cases h <;> decide

/-- Witness for C11 at the input "hidden", which returns 2. -/
theorem VisibilityFromString_range_witness :
    call (lit "hidden") = Except.ok 2 ∧
    (0 ≤ 2 ∧ 2 ≤ 3 ∧ 2 + 1 < initGlobals._Visibility_index.length) :=
  ⟨by decide, VisibilityFromString_range (lit "hidden") 2 (by decide)⟩

/-- C12: slicing is always in bounds.  `_Visibility_index` starts at 0, is strictly
increasing and ends at `len(_Visibility_name) = 26`; the loop visits `i = 0..3`, and for
each of them `_Visibility_index[i]`, `_Visibility_index[i+1]` and the slice
`_Visibility_name[_Visibility_index[i]:_Visibility_index[i+1]]` evaluate without a panic;
so every call either returns or panics with the explicit "unable to locate" panic. -/
theorem VisibilityFromString_in_bounds :
    initGlobals._Visibility_index.head? = some 0 ∧
    List.Pairwise (fun a b => a < b) initGlobals._Visibility_index ∧
    initGlobals._Visibility_index.getLast? = some _Visibility_name.length ∧
    _Visibility_name.length = 26 ∧
    initGlobals._Visibility_index.length - 1 = 4 ∧
    (∀ i : Fin 4, ∃ lo hi e,
      loadIndex i.val initGlobals = (Except.ok lo, initGlobals) ∧
      loadIndex (i.val + 1) initGlobals = (Except.ok hi, initGlobals) ∧
      lo ≤ hi ∧ hi ≤ _Visibility_name.length ∧
      sliceName lo hi initGlobals = (Except.ok e, initGlobals)) ∧
    (∀ s : GoString,
      (∃ v, call s = Except.ok v) ∨ call s = Except.error (Panic.unableToLocate s)) := by
  refine ⟨by decide, by decide, by decide, by decide, by decide, ?_, ?_⟩
  · intro i
    fin_cases i
    · exact ⟨0, 4, lit "none", rfl, rfl, by decide, by decide, by decide⟩
    · exact ⟨4, 11, lit "default", rfl, rfl, by decide, by decide, by decide⟩
    · exact ⟨11, 17, lit "hidden", rfl, rfl, by decide, by decide, by decide⟩
    · exact ⟨17, 26, lit "protected", rfl, rfl, by decide, by decide, by decide⟩
  · intro s
    rw [call_eq]
    split_ifs
    · exact Or.inl ⟨0, rfl⟩
    · exact Or.inl ⟨0, rfl⟩
    · exact Or.inl ⟨1, rfl⟩
    · exact Or.inl ⟨2, rfl⟩
    · exact Or.inl ⟨3, rfl⟩
    · exact Or.inr rfl

/-- C13: the four entries that `_Visibility_index` cuts out of `_Visibility_name` are
non-empty and pairwise distinct, and their concatenation in order is the whole of
`_Visibility_name`; hence for every string at most one loop index matches, and the
first-match return never shadows a later entry: entry `i` is mapped to `i`. -/
theorem Visibility_entries_partition :
    entries.length = 4 ∧
    [] ∉ entries ∧
    entries.Nodup ∧
    entries.flatten = _Visibility_name ∧
    (∀ s : GoString,
      ((List.range (initGlobals._Visibility_index.length - 1)).filter
        (fun i => decide (entry i = some s))).length ≤ 1) ∧
    (∀ i : Fin 4, (entry i.val).map call = some (Except.ok i.val)) := by
  refine ⟨by decide, by decide, by decide, by decide, ?_, by decide⟩
  intro s
  have hr : List.range (initGlobals._Visibility_index.length - 1) = [0, 1, 2, 3] := by decide
  have e0 : entry 0 = some (lit "none") := by decide
  have e1 : entry 1 = some (lit "default") := by decide
  have e2 : entry 2 = some (lit "hidden") := by decide
  have e3 : entry 3 = some (lit "protected") := by decide
  rw [hr]
  simp only [List.filter, e0, e1, e2, e3, Option.some.injEq]
  by_cases h0 : lit "none" = s
  · subst h0; decide
  · by_cases h1 : lit "default" = s
    · subst h1; decide
    · by_cases h2 : lit "hidden" = s
      · subst h2; decide
      · by_cases h3 : lit "protected" = s
        · subst h3; decide
        · simp [h0, h1, h2, h3]

end Enum
